import Mathlib

/-!
Shallow embedding of the talos-vm-bootstrap remote trust-and-execution
subsystem and bootstrap step orchestrator, together with proofs of the
specification's testable properties.

Sources embedded:
  internal/ssh (exec helpers, host-key trust manager, TCP prober),
  internal/workflow (fingerprint stabilization loop),
  internal/bootstrap/run.go (step orchestrator).

External effects (process execution, file system, ssh-keyscan output,
interactive prompts, context cancellation) are modelled as explicit
environment parameters; trust-store mutations are recorded as an
operation trace. Cryptographic key parsing and fingerprinting
(ssh.ParseAuthorizedKey + ssh.FingerprintSHA256) are abstracted as a
function from a key line to an optional fingerprint.
-/

namespace TalosVM

/-! ### Go string primitives (structural, kernel-evaluable) -/

/-- Whitespace recognised by Go strings.TrimSpace / strings.Fields (ASCII part). -/
def goIsSpace (c : Char) : Bool :=
  c = ' ' || c = '\t' || c = '\n' || c = '\x0b' || c = '\x0c' || c = '\r'

/-- Trim on char lists: drop leading and trailing whitespace. -/
def trimChars (l : List Char) : List Char :=
  ((l.dropWhile goIsSpace).reverse.dropWhile goIsSpace).reverse

/-- Models Go strings.TrimSpace. -/
def goTrim (s : String) : String :=
  String.mk (trimChars s.data)

/-- Split a char list on a separator char; Go strings.Split semantics
(n-1 separators yield n pieces, empty pieces preserved). -/
def splitChar (sep : Char) : List Char → List (List Char)
  | [] => [[]]
  | c :: cs =>
    let r := splitChar sep cs
    if c = sep then [] :: r
    else
      match r with
      | [] => [[c]]
      | h :: t => (c :: h) :: t

/-- Models Go strings.Split(s, "\n"). -/
def goSplitNewline (s : String) : List String :=
  (splitChar '\n' s.data).map String.mk

/-- Split a char list at every char satisfying p (empty pieces preserved). -/
def splitPred (p : Char → Bool) : List Char → List (List Char)
  | [] => [[]]
  | c :: cs =>
    let r := splitPred p cs
    if p c then [] :: r
    else
      match r with
      | [] => [[c]]
      | h :: t => (c :: h) :: t

/-- Models Go strings.Fields: split on whitespace runs, dropping empties. -/
def goFields (s : String) : List String :=
  ((splitPred goIsSpace s.data).filter (fun w => ¬ w.isEmpty)).map String.mk

/-- Models Go strings.ToLower (character-wise). -/
def goToLower (s : String) : String :=
  String.mk (s.data.map Char.toLower)

/-- Substring search on char lists. -/
def charsHasSub : List Char → List Char → Bool
  | _, [] => true
  | [], _ :: _ => false
  | c :: cs, d :: ds =>
    ((d :: ds).isPrefixOf (c :: cs)) || charsHasSub cs (d :: ds)

/-- Models Go strings.Contains. -/
def strContains (s pat : String) : Bool :=
  charsHasSub s.data pat.data

/-- Models Go strings.HasPrefix. -/
def strHasPre (s pat : String) : Bool :=
  pat.data.isPrefixOf s.data

/-- Join a list of strings with a separator (Go strings.Join). -/
def goJoin (sep : String) : List String → String
  | [] => ""
  | [x] => x
  | x :: y :: rest => x ++ sep ++ goJoin sep (y :: rest)

/-! ### internal/ssh: exec configuration and pure helpers -/

/-- Pinned host key algorithm (internal/ssh const hostKeyAlgorithm). -/
def hostKeyAlgorithm : String := "ssh-ed25519"

/-- Models ssh.ExecConfig. The interactive prompt callback is an optional
function from the prompt message to a result (Go: func(string) (bool, error),
possibly nil); ConnectTimeout is carried as whole seconds
(int(cfg.ConnectTimeout / time.Second)). -/
structure ExecConfig where
  host : String
  port : Int
  user : String
  privateKeyPath : String
  knownHostsFile : String
  knownHostsMode : String
  expectedHostKeySHA256 : String
  prompt : Option (String → Except String Bool)
  connectTimeoutSeconds : Int

/-- Models internal/ssh normalizeKnownHostsMode. -/
def normalizeKnownHostsMode (mode : String) : String :=
  let m := goToLower (goTrim mode)
  if m = "" ∨ m = "strict" then "strict"
  else if m = "prompt" then "prompt"
  else if m = "accept-new" ∨ m = "accept_new" then "accept-new"
  else if m = "auto-refresh" ∨ m = "auto_refresh" then "auto-refresh"
  else "strict"

/-- Models internal/ssh knownHostsTarget: host[:port] form and keyscan args. -/
def knownHostsTarget (cfg : ExecConfig) : String × List String :=
  let host := goTrim cfg.host
  if cfg.port ≤ 0 ∨ cfg.port = 22 then (host, [host])
  else ("[" ++ host ++ "]:" ++ toString cfg.port, ["-p", toString cfg.port, host])

/-- Models internal/ssh buildSSHArgs. -/
def buildSSHArgs (cfg : ExecConfig) (remoteCommand : String) : List String :=
  let connectSeconds : Int :=
    if cfg.connectTimeoutSeconds ≤ 0 then 5 else cfg.connectTimeoutSeconds
  let base : List String :=
    ["-o", "BatchMode=yes",
     "-o", "IdentitiesOnly=yes",
     "-o", "HostKeyAlgorithms=" ++ hostKeyAlgorithm,
     "-o", "ConnectTimeout=" ++ toString connectSeconds,
     "-p", toString cfg.port,
     "-i", cfg.privateKeyPath]
  let mode := normalizeKnownHostsMode cfg.knownHostsMode
  let strictFlag := if mode = "accept-new" then "accept-new" else "yes"
  let args :=
    if cfg.knownHostsFile ≠ "" then
      base ++ ["-o", "StrictHostKeyChecking=" ++ strictFlag,
               "-o", "UserKnownHostsFile=" ++ cfg.knownHostsFile]
    else
      base ++ ["-o", "StrictHostKeyChecking=" ++ strictFlag]
  args ++ [cfg.user ++ "@" ++ cfg.host, remoteCommand]

/-- Models internal/ssh shouldAutoRefreshKnownHost. -/
def shouldAutoRefreshKnownHost (cfg : ExecConfig) (stderr : String) : Bool :=
  if goTrim cfg.knownHostsFile = "" then false
  else
    let mode := normalizeKnownHostsMode cfg.knownHostsMode
    if mode ≠ "auto-refresh" ∧ mode ≠ "prompt" then false
    else
      let msg := goToLower stderr
      strContains msg "host key verification failed" &&
        (strContains msg "host identification has changed" || strContains msg "offending")

/-- Predicate for noisy curl progress rows dropped by summarizeSSHStderr. -/
def isNoiseLine (t : String) : Bool :=
  strContains t "% Total" || strContains t "Dload" || strContains t "--:--:--"

/-- Informative (kept) stderr lines: trimmed, non-empty, not noise. -/
def informativeLines (stderr : String) : List String :=
  (goSplitNewline (goTrim stderr)).filterMap (fun l =>
    let t := goTrim l
    if t = "" then none
    else if isNoiseLine t then none
    else some t)

/-- Models internal/ssh summarizeSSHStderr. -/
def summarizeSSHStderr (stderr : String) : String :=
  match informativeLines stderr with
  | [] => goTrim stderr
  | [t] => t
  | l =>
    goJoin " | " (l.drop (l.length - 2))

/-- Truncation applied by formatSSHRunError (bound 360, modelled in chars). -/
def truncate360 (t : String) : String :=
  if t.length > 360 then String.mk (t.data.take 360) ++ "..." else t

/-- Models internal/ssh formatSSHRunError, as the resulting error text. -/
def formatSSHRunError (pfx errMsg stderr : String) : String :=
  let errText := summarizeSSHStderr stderr
  if errText = "" then pfx ++ ": " ++ errMsg
  else pfx ++ ": " ++ errMsg ++ " (" ++ truncate360 errText ++ ")"

/-! ### internal/ssh: host-key scanning and the trust manager

The ssh-keyscan process is an environment parameter scanExec : Nat → Except
String String giving, for the k-th keyscan invocation of the call, either an
execution error or the raw stdout. Key parsing and fingerprinting are the
abstract parseFP : String → Option String. Trust-store mutations
(ssh-keygen -R followed by appending an entry) are recorded as a StoreOp
trace rather than performed. -/

/-- Trust-store mutation trace entries: best-effort removal of the entries
for a host target, and appending a raw line (or raw keyscan output). -/
inductive StoreOp where
  | remove (target : String)
  | append (entry : String)
  deriving DecidableEq, Repr

/-- Association-list update with Go map semantics (assignment overwrites). -/
def assocUpdate : List (String × String) → String → String → List (String × String)
  | [], k, v => [(k, v)]
  | (k1, v1) :: rest, k, v =>
    if k1 = k then (k, v) :: rest else (k1, v1) :: assocUpdate rest k v

/-- Association-list lookup (Go map read). -/
def assocFind : List (String × String) → String → Option String
  | [], _ => none
  | (k1, v1) :: rest, k => if k1 = k then some v1 else assocFind rest k

/-- Result of parsing one keyscan output: first-seen (preferred) fingerprint
and raw entry, plus the full fingerprint-to-entry map. -/
structure ScanSet where
  fp : String
  entry : String
  all : List (String × String)

/-- State for the line-processing loop of scanHostKeyFingerprintSet. -/
structure ScanState where
  prefFP : String
  prefEntry : String
  all : List (String × String)

/-- One iteration of the scanHostKeyFingerprintSet line loop:
trim, skip blanks and comments, require 3 fields, parse fields[1]+" "+fields[2]
as a key, record fingerprint → (line + "\n"), keep the first entry as preferred. -/
def scanParseLine (parseFP : String → Option String) (st : ScanState) (rawLine : String) :
    ScanState :=
  let t := goTrim rawLine
  if t = "" then st
  else if strHasPre t "#" then st
  else
    let fs := goFields t
    if fs.length < 3 then st
    else
      let keyLine := fs.getD 1 "" ++ " " ++ fs.getD 2 ""
      match parseFP keyLine with
      | none => st
      | some fp =>
        let entry := t ++ "\n"
        let all := assocUpdate st.all fp entry
        if st.prefFP = "" then ⟨fp, entry, all⟩ else ⟨st.prefFP, st.prefEntry, all⟩

/-- Models the pure part of internal/ssh scanHostKeyFingerprintSet: parse a raw
keyscan stdout into the preferred fingerprint/entry and fingerprint set. -/
def scanHostKeyFingerprintSetPure (parseFP : String → Option String)
    (target raw : String) : Except String ScanSet :=
  let st := (goSplitNewline raw).foldl (scanParseLine parseFP) ⟨"", "", []⟩
  if st.prefFP ≠ "" then .ok ⟨st.prefFP, st.prefEntry, st.all⟩
  else .error ("no valid host key found for " ++ target)

/-- The k-th ssh-keyscan invocation: run the scanner and parse its output
(internal/ssh scanHostKeyFingerprintSet, effectful part). -/
def scanSetAt (parseFP : String → Option String) (scanExec : Nat → Except String String)
    (cfg : ExecConfig) (k : Nat) : Except String ScanSet :=
  match scanExec k with
  | .error e => .error ("ssh-keyscan " ++ (knownHostsTarget cfg).fst ++ ": " ++ e)
  | .ok raw => scanHostKeyFingerprintSetPure parseFP (knownHostsTarget cfg).fst raw

/-- Models internal/ssh writeKnownHostsEntry: best-effort removal of the prior
entry for host[:port], then append of the accepted raw entry. Directory
creation and file writes are modelled as succeeding. -/
def writeKnownHostsEntry (cfg : ExecConfig) (entry : String) :
    Except String Unit × List StoreOp :=
  if goTrim cfg.knownHostsFile = "" then (.error "known_hosts path is empty", [])
  else (.ok (), [.remove (knownHostsTarget cfg).fst, .append entry])

/-- Outcome of the stabilization re-scan: result and next keyscan index. -/
structure StableOut where
  res : Except String (String × String)
  next : Nat

/-- Models internal/ssh ensureStableScannedHostKey: wait, re-scan, reject empty
fingerprints and mid-verification changes, and return the second scan's entry.
ctxDone models the invocation deadline having fired during the wait. -/
def ensureStableScannedHostKey (parseFP : String → Option String)
    (scanExec : Nat → Except String String) (cfg : ExecConfig) (ctxDone : Bool)
    (firstFP _firstEntry : String) (k : Nat) : StableOut :=
  if ctxDone then ⟨.error "context canceled", k⟩
  else
    match scanSetAt parseFP scanExec cfg k with
    | .error e => ⟨.error e, k + 1⟩
    | .ok s =>
      if goTrim firstFP = "" ∨ goTrim s.fp = "" then
        ⟨.error "ssh host fingerprint scan returned empty value", k + 1⟩
      else if firstFP ≠ s.fp then
        ⟨.error ("ssh host fingerprint changed during verification (" ++ firstFP ++
          " -> " ++ s.fp ++ "); retry after VM stabilizes"), k + 1⟩
      else if goTrim s.entry = "" then
        ⟨.error "ssh host key entry is empty after verification", k + 1⟩
      else ⟨.ok (s.fp, s.entry), k + 1⟩

/-- Outcome of the trust manager: result, store-op trace, next keyscan index. -/
structure TrustOut where
  res : Except String Unit
  ops : List StoreOp
  next : Nat

/-- The mismatch error text of ensureExpectedHostKey. -/
def fingerprintMismatchMsg (expected got : String) : String :=
  "ssh host fingerprint mismatch (expected " ++ expected ++ ", got " ++ got ++ ")"

/-- The prompt message ensureExpectedHostKey shows for a changed key. -/
def hostKeyChangedPromptMsg (expected got : String) : String :=
  "SSH host key changed (expected " ++ expected ++ ", got " ++ got ++ "). Accept new host key?"

/-- Shared recovery tail of ensureExpectedHostKey: run the stabilization check
and, on success, write the stabilized entry to the trust store. -/
def trustStablePath (parseFP : String → Option String)
    (scanExec : Nat → Except String String) (cfg : ExecConfig) (ctxDone : Bool)
    (fp entry : String) (k : Nat) : TrustOut :=
  match ensureStableScannedHostKey parseFP scanExec cfg ctxDone fp entry k with
  | ⟨.error e, k2⟩ => ⟨.error e, [], k2⟩
  | ⟨.ok (_sfp, sentry), k2⟩ =>
    let w := writeKnownHostsEntry cfg sentry
    ⟨w.fst, w.snd, k2⟩

/-- Models internal/ssh ensureExpectedHostKey (the ensureTrust primitive):
no-op without an expected fingerprint; requires a trust-store path; scans the
identity set; writes the preferred entry when the expected fingerprint is
present; otherwise applies the trust-mode policy (strict fails, prompt asks,
auto-refresh proceeds through the stabilization check). -/
def ensureExpectedHostKey (parseFP : String → Option String)
    (scanExec : Nat → Except String String) (cfg : ExecConfig) (ctxDone : Bool)
    (k : Nat) : TrustOut :=
  let expected := goTrim cfg.expectedHostKeySHA256
  if expected = "" then ⟨.ok (), [], k⟩
  else if goTrim cfg.knownHostsFile = "" then
    ⟨.error "known_hosts_file is required when expected host fingerprint is set", [], k⟩
  else
    match scanSetAt parseFP scanExec cfg k with
    | .error e => ⟨.error e, [], k + 1⟩
    | .ok s =>
      match assocFind s.all expected with
      | some _ =>
        let w := writeKnownHostsEntry cfg s.entry
        ⟨w.fst, w.snd, k + 1⟩
      | none =>
        let mode := normalizeKnownHostsMode cfg.knownHostsMode
        if mode = "auto-refresh" ∨ mode = "prompt" then
          if mode = "prompt" then
            match cfg.prompt with
            | none => ⟨.error (fingerprintMismatchMsg expected s.fp), [], k + 1⟩
            | some p =>
              match p (hostKeyChangedPromptMsg expected s.fp) with
              | .error pe => ⟨.error ("known_hosts prompt failed: " ++ pe), [], k + 1⟩
              | .ok true => trustStablePath parseFP scanExec cfg ctxDone s.fp s.entry (k + 1)
              | .ok false => ⟨.error (fingerprintMismatchMsg expected s.fp), [], k + 1⟩
          else trustStablePath parseFP scanExec cfg ctxDone s.fp s.entry (k + 1)
        else ⟨.error (fingerprintMismatchMsg expected s.fp), [], k + 1⟩

/-- Models internal/ssh autoRefreshKnownHost: unconditional remove + re-scan +
append of the raw keyscan output, with no stabilization check. The best-effort
removal happens before the scan, so it is traced even when the scan fails. -/
def autoRefreshKnownHost (scanExec : Nat → Except String String)
    (cfg : ExecConfig) (k : Nat) : TrustOut :=
  if goTrim cfg.host = "" ∨ goTrim cfg.knownHostsFile = "" then
    ⟨.error "known_hosts refresh requires host and known_hosts path", [], k⟩
  else
    let target := (knownHostsTarget cfg).fst
    match scanExec k with
    | .error e => ⟨.error ("ssh-keyscan " ++ target ++ ": " ++ e), [.remove target], k + 1⟩
    | .ok raw => ⟨.ok (), [.remove target, .append raw], k + 1⟩

/-! ### internal/ssh: the remote command executor -/

/-- Outcome of one execution of the ssh process: captured stdout/stderr and
an optional run error (Go exec error text). -/
structure CmdRes where
  stdout : String
  stderr : String
  err : Option String

/-- Outcome of runSSHCommand: the returned (stdout, stderr, error) triple, the
trust-store op trace, the number of times the remote command was executed,
and the number of keyscan invocations consumed. -/
structure SSHRunOut where
  stdout : String
  stderr : String
  err : Option String
  ops : List StoreOp
  cmdRuns : Nat
  scansNext : Nat

/-- Models internal/ssh runSSHCommand: ensure trust, run the command, and on a
host-identity-changed failure (policy permitting, prompt approving) auto-refresh
the trust store and retry exactly once. cmdExec gives the outcome of the i-th
execution of the built ssh command within this call. -/
def runSSHCommand (parseFP : String → Option String)
    (scanExec : Nat → Except String String) (cmdExec : Nat → CmdRes)
    (cfg : ExecConfig) (ctxDone : Bool) (pfx : String) : SSHRunOut :=
  let t := ensureExpectedHostKey parseFP scanExec cfg ctxDone 0
  match t.res with
  | .error e => ⟨"", "", some e, t.ops, 0, t.next⟩
  | .ok _ =>
    let r0 := cmdExec 0
    match r0.err with
    | none => ⟨r0.stdout, r0.stderr, none, t.ops, 1, t.next⟩
    | some e0 =>
      if shouldAutoRefreshKnownHost cfg r0.stderr then
        -- allow := true, overridden by the prompt in prompt mode
        let decide0 : Except String (Option Bool) :=
          if normalizeKnownHostsMode cfg.knownHostsMode = "prompt" then
            match cfg.prompt with
            | none => .ok none      -- nil prompt: fall through to the plain error
            | some p =>
              match p "SSH host key changed. Accept new host key?" with
              | .error pe => .error ("known_hosts prompt failed: " ++ pe)
              | .ok b => .ok (some b)
          else .ok (some true)
        match decide0 with
        | .error pe => ⟨r0.stdout, r0.stderr, some pe, t.ops, 1, t.next⟩
        | .ok none =>
          ⟨r0.stdout, r0.stderr, some (formatSSHRunError pfx e0 r0.stderr), t.ops, 1, t.next⟩
        | .ok (some false) =>
          ⟨r0.stdout, r0.stderr, some (formatSSHRunError pfx e0 r0.stderr), t.ops, 1, t.next⟩
        | .ok (some true) =>
          let ref := autoRefreshKnownHost scanExec cfg t.next
          match ref.res with
          | .ok _ =>
            let r1 := cmdExec 1
            match r1.err with
            | none => ⟨r1.stdout, r1.stderr, none, t.ops ++ ref.ops, 2, ref.next⟩
            | some e1 =>
              ⟨r1.stdout, r1.stderr, some (formatSSHRunError pfx e1 r1.stderr),
                t.ops ++ ref.ops, 2, ref.next⟩
          | .error _ =>
            ⟨r0.stdout, r0.stderr, some (formatSSHRunError pfx e0 r0.stderr),
              t.ops ++ ref.ops, 1, ref.next⟩
      else
        ⟨r0.stdout, r0.stderr, some (formatSSHRunError pfx e0 r0.stderr), t.ops, 1, t.next⟩

/-! ### internal/workflow: fingerprint stabilization loop -/

/-- Result of stabilizeHostFingerprint. fuelOut is a modelling artifact for
exhausted fuel (the Go loop is unbounded and exits only by returning or by
the context deadline). -/
inductive StabilizeRes where
  | ok (fp : String)
  | canceled (lastErr : Option String)
  | fuelOut
  deriving DecidableEq, Repr

/-- The requiredConsecutive constant of stabilizeHostFingerprint. -/
def requiredConsecutive : Nat := 2

/-- Loop body of internal/workflow stabilizeHostFingerprint. scan gives the
k-th probe outcome; done says whether the context deadline has fired when the
k-th iteration starts. State: prev fingerprint, consecutive count, last probe
error. -/
def stabilizeAux (scan : Nat → Except String String) (done : Nat → Bool) :
    Nat → Nat → String → Nat → Option String → StabilizeRes
  | 0, _, _, _, _ => .fuelOut
  | fuel + 1, k, prev, consec, lastErr =>
    if done k then .canceled lastErr
    else
      match scan k with
      | .error e => stabilizeAux scan done fuel (k + 1) prev consec (some e)
      | .ok fp =>
        if goTrim fp = "" then stabilizeAux scan done fuel (k + 1) prev consec lastErr
        else
          let consec1 := if fp = prev then consec + 1 else 1
          if requiredConsecutive ≤ consec1 then .ok fp
          else stabilizeAux scan done fuel (k + 1) fp consec1 lastErr

/-- Models internal/workflow stabilizeHostFingerprint: require two consecutive
identical non-empty fingerprint observations; skip erroring or empty scans;
fail with the context error (wrapping the last probe error) once the deadline
fires. -/
def stabilizeHostFingerprint (scan : Nat → Except String String)
    (done : Nat → Bool) (fuel : Nat) : StabilizeRes :=
  stabilizeAux scan done fuel 0 "" 0 none

/-! ### internal/bootstrap/run.go: the step orchestrator -/

/-- Models pkg/model StepStatus. -/
inductive StepStatus where
  | planned
  | success
  | failed
  | skipped
  | inProgress
  deriving DecidableEq, Repr

/-- Models pkg/model StepResult (wall-clock duration omitted: time-valued). -/
structure StepResult where
  name : String
  status : StepStatus
  message : String
  deriving DecidableEq, Repr

/-- Models the observable part of pkg/model BootstrapResult (timestamps,
host/user/cluster echo fields and kubeconfig path omitted: copied verbatim
from the configuration). -/
structure RunResult where
  status : String
  steps : List StepResult
  error : String
  dryRun : Bool
  deriving DecidableEq, Repr

/-- Outcome of bootstrap.Run: the result, the returned error, and the names of
the steps whose action was executed, in execution order. -/
structure BootstrapOut where
  result : RunResult
  runError : Option String
  executed : List String
  deriving DecidableEq, Repr

/-- The fixed pipeline (name, description) pairs of bootstrap.Run. -/
def pipelineSteps : List (String × String) :=
  [("ssh_connectivity", "Check SSH TCP reachability"),
   ("os_hardening", "Apply idempotent OS hardening baseline"),
   ("docker_install", "Install pinned Docker version"),
   ("talosctl_install", "Install pinned talosctl and verify checksum"),
   ("cluster_create", "Create Talos-in-Docker cluster if missing")]

/-- The sequential fail-fast step loop of bootstrap.Run. act gives each step
action's outcome (none = success, some msg = the error text). Returns the
recorded StepResults, the pipeline error if any, and executed step names. -/
def runStepsAux (act : String → Option String) :
    List (String × String) → List StepResult × Option String × List String
  | [] => ([], none, [])
  | (n, _) :: rest =>
    match act n with
    | some msg =>
      ([⟨n, .failed, msg⟩], some ("step " ++ n ++ " failed: " ++ msg), [n])
    | none =>
      let r := runStepsAux act rest
      (⟨n, .success, ""⟩ :: r.1, r.2.1, n :: r.2.2)

/-- Models bootstrap.Run: dry-run returns the planned step list without
executing anything; otherwise steps run sequentially and fail fast. -/
def bootstrapRun (dryRun : Bool) (act : String → Option String) : BootstrapOut :=
  if dryRun then
    ⟨⟨"planned", pipelineSteps.map (fun p => ⟨p.1, .planned, p.2⟩), "", true⟩, none, []⟩
  else
    let r := runStepsAux act pipelineSteps
    match r.2.1 with
    | some e => ⟨⟨"failed", r.1, e, false⟩, some e, r.2.2⟩
    | none => ⟨⟨"success", r.1, "", false⟩, none, r.2.2⟩

/-! ### internal/ssh/check.go: the connectivity prober -/

/-- Result of WaitForTCPPortWithStats: attemptsUsed mirrors stats.Attempts.
canceled carries the attempts at cancellation; exhausted wraps the last
low-level dial error. -/
inductive PortWaitOut where
  | ok (attemptsUsed : Nat)
  | canceled (attemptsUsed : Nat) (lastErr : Option String)
  | exhausted (attemptsUsed : Nat) (lastErr : Option String)
  deriving DecidableEq, Repr

/-- Attempt loop of WaitForTCPPortWithStats. dial i is the i-th dial outcome
(none = connected); canceledAt i says whether the context fires during the
sleep after failed attempt i. -/
def waitForTCPPortAux (dial : Nat → Option String) (canceledAt : Nat → Bool) :
    Nat → Nat → Option String → PortWaitOut
  | i, 0, lastErr => .exhausted i lastErr
  | i, r + 1, _ =>
    match dial i with
    | none => .ok (i + 1)
    | some e =>
      if canceledAt i then .canceled (i + 1) (some e)
      else waitForTCPPortAux dial canceledAt (i + 1) r (some e)

/-- Models internal/ssh WaitForTCPPortWithStats. -/
def waitForTCPPortWithStats (dial : Nat → Option String) (canceledAt : Nat → Bool)
    (attempts : Nat) : PortWaitOut :=
  waitForTCPPortAux dial canceledAt 0 attempts none

/-! ### Concrete scenarios used by counterexamples and witnesses -/

/-- Abstract key parser for the two-key scenarios: key X and key Y. -/
def c1Parse : String → Option String := fun kl =>
  if kl = "ssh-ed25519 AAAX" then some "SHA256:xfp"
  else if kl = "ssh-ed25519 AAAY" then some "SHA256:yfp"
  else none

/-- Keyscan output presenting key X first, then key Y. -/
def c1Scan : Nat → Except String String := fun _ =>
  .ok "h ssh-ed25519 AAAX\nh ssh-ed25519 AAAY\n"

/-- Strict-mode configuration pinning Y's fingerprint. -/
def c1Cfg : ExecConfig :=
  { host := "h", port := 22, user := "dev", privateKeyPath := "/tmp/key",
    knownHostsFile := "/kh", knownHostsMode := "strict",
    expectedHostKeySHA256 := "SHA256:yfp", prompt := none,
    connectTimeoutSeconds := 5 }

/-- Keyscan sequence: first scan sees key X, re-scan sees key Y. -/
def c3Scan : Nat → Except String String := fun k =>
  if k = 0 then .ok "h ssh-ed25519 AAAX\n" else .ok "h ssh-ed25519 AAAY\n"

/-- Auto-refresh configuration pinning a fingerprint that is never scanned. -/
def c3Cfg : ExecConfig :=
  { host := "h", port := 22, user := "dev", privateKeyPath := "/tmp/key",
    knownHostsFile := "/kh", knownHostsMode := "auto-refresh",
    expectedHostKeySHA256 := "SHA256:zfp", prompt := none,
    connectTimeoutSeconds := 5 }

/-- Auto-refresh configuration with no pinned fingerprint (trust is a no-op). -/
def c6Cfg : ExecConfig :=
  { host := "h", port := 22, user := "dev", privateKeyPath := "/tmp/key",
    knownHostsFile := "/kh", knownHostsMode := "auto-refresh",
    expectedHostKeySHA256 := "", prompt := none,
    connectTimeoutSeconds := 5 }

/-- Command outcomes: first run fails with a host-identity-changed stderr,
the retry succeeds. -/
def c6Cmd : Nat → CmdRes := fun i =>
  if i = 0 then
    ⟨"", "Host key verification failed. Offending ECDSA key in /kh", some "exit status 255"⟩
  else ⟨"ok\n", "", none⟩

/-- Configuration with a pinned fingerprint but no trust-store path. -/
def c9Cfg : ExecConfig :=
  { host := "h", port := 22, user := "dev", privateKeyPath := "/tmp/key",
    knownHostsFile := "", knownHostsMode := "strict",
    expectedHostKeySHA256 := "SHA256:yfp", prompt := none,
    connectTimeoutSeconds := 5 }

/-- Configuration with an unrecognized trust-mode string. -/
def c10Cfg : ExecConfig :=
  { host := "h", port := 22, user := "dev", privateKeyPath := "/tmp/key",
    knownHostsFile := "/kh", knownHostsMode := "weird",
    expectedHostKeySHA256 := "", prompt := none,
    connectTimeoutSeconds := 5 }

/-- Step-action environment failing exactly at docker_install. -/
def c2Act : String → Option String := fun n =>
  if n = "docker_install" then some "boom" else none

/-! ### Supporting lemmas -/

/-- One-step unfolding of the prober loop (base case). -/
theorem waitAux_base (dial : Nat → Option String) (canceledAt : Nat → Bool)
    (i : Nat) (last : Option String) :
    waitForTCPPortAux dial canceledAt i 0 last = .exhausted i last := rfl

/-- One-step unfolding of the prober loop (attempt case). -/
theorem waitAux_step (dial : Nat → Option String) (canceledAt : Nat → Bool)
    (i r : Nat) (last : Option String) :
    waitForTCPPortAux dial canceledAt i (r + 1) last =
      (match dial i with
       | none => .ok (i + 1)
       | some e =>
         if canceledAt i then .canceled (i + 1) (some e)
         else waitForTCPPortAux dial canceledAt (i + 1) r (some e)) := rfl

/-- Fail-fast shape of the step loop: successes for a clean run-up, then the
single failed entry, and nothing recorded or executed beyond it. -/
theorem runStepsAux_append_fail (act : String → Option String) (msg : String) :
    ∀ (pre : List (String × String)) (f : String × String) (rest : List (String × String)),
    (∀ p ∈ pre, act p.1 = none) → act f.1 = some msg →
    runStepsAux act (pre ++ f :: rest) =
      (pre.map (fun p => ⟨p.1, .success, ""⟩) ++ [⟨f.1, .failed, msg⟩],
       some ("step " ++ f.1 ++ " failed: " ++ msg),
       pre.map Prod.fst ++ [f.1]) := by
  intro pre
  induction pre with
  | nil =>
    intro f rest _ hf
    cases f with
    | mk n d => simp only [List.nil_append, runStepsAux, hf, List.map_nil]
  | cons p pre ih =>
    intro f rest hpre hf
    cases p with
    | mk n d =>
      have hn : act n = none := hpre (n, d) (by simp)
      have hrec := ih f rest (fun q hq => hpre q (by simp [hq])) hf
      simp only [List.cons_append, runStepsAux, hn, List.append_eq, hrec, List.map_cons]

/-- All-failing attempt loop: with no cancellation and every dial failing, the
prober runs through all remaining attempts and reports the last dial error. -/
theorem waitAux_allFail (dial : Nat → Option String) (canceledAt : Nat → Bool)
    (hc : ∀ i, canceledAt i = false) :
    ∀ (r i : Nat) (last : Option String),
    (∀ j, j < i + (r + 1) → (dial j).isSome) →
    waitForTCPPortAux dial canceledAt i (r + 1) last =
      .exhausted (i + (r + 1)) (dial (i + r)) := by
  intro r
  induction r with
  | zero =>
    intro i last hfail
    obtain ⟨e, he⟩ := Option.isSome_iff_exists.mp (hfail i (by omega))
    rw [waitAux_step, he]
    simp [hc i, waitAux_base, he]
  | succ r ih =>
    intro i last hfail
    obtain ⟨e, he⟩ := Option.isSome_iff_exists.mp (hfail i (by omega))
    have hrec := ih (i + 1) (some e) (fun j hj => hfail j (by omega))
    have h1 : i + 1 + (r + 1) = i + (r + 1 + 1) := by omega
    have h2 : i + 1 + r = i + (r + 1) := by omega
    rw [h1, h2] at hrec
    rw [waitAux_step, he]
    simp [hc i, hrec]

/-! ### Claims -/

/-- C4: with DryRun=true, Run executes no step action (executed list is empty,
for every action environment), returns status "planned", and the steps list is
exactly one planned entry per pipeline step in the fixed order
ssh_connectivity, os_hardening, docker_install, talosctl_install,
cluster_create. -/
theorem dryRun_pure (act : String → Option String) :
    bootstrapRun true act =
      ⟨⟨"planned",
        [⟨"ssh_connectivity", .planned, "Check SSH TCP reachability"⟩,
         ⟨"os_hardening", .planned, "Apply idempotent OS hardening baseline"⟩,
         ⟨"docker_install", .planned, "Install pinned Docker version"⟩,
         ⟨"talosctl_install", .planned, "Install pinned talosctl and verify checksum"⟩,
         ⟨"cluster_create", .planned, "Create Talos-in-Docker cluster if missing"⟩],
        "", true⟩,
       none, []⟩ := rfl

/-- C4 witness: dry-run at a concrete action environment (one that would fail
docker_install if executed) still returns the pure plan. -/
theorem dryRun_pure_witness :
    bootstrapRun true c2Act =
      ⟨⟨"planned",
        [⟨"ssh_connectivity", .planned, "Check SSH TCP reachability"⟩,
         ⟨"os_hardening", .planned, "Apply idempotent OS hardening baseline"⟩,
         ⟨"docker_install", .planned, "Install pinned Docker version"⟩,
         ⟨"talosctl_install", .planned, "Install pinned talosctl and verify checksum"⟩,
         ⟨"cluster_create", .planned, "Create Talos-in-Docker cluster if missing"⟩],
        "", true⟩,
       none, []⟩ :=
  dryRun_pure c2Act

/-- C2: fail-fast. If the step at position pre.length + 1 (1-based) fails with
message msg while all earlier steps succeed, the non-dry-run Run records
exactly those steps (length pre.length + 1), ends with the failed entry
carrying msg, sets status "failed" and an error naming the failing step,
returns that error, and executes no later step. -/
theorem run_failFast (act : String → Option String)
    (pre : List (String × String)) (f : String × String) (rest : List (String × String))
    (msg : String)
    (hsplit : pipelineSteps = pre ++ f :: rest)
    (hpre : ∀ p ∈ pre, act p.1 = none)
    (hf : act f.1 = some msg) :
    (bootstrapRun false act).result.steps.length = pre.length + 1 ∧
    (bootstrapRun false act).result.steps.getLast? = some ⟨f.1, .failed, msg⟩ ∧
    (bootstrapRun false act).result.status = "failed" ∧
    (bootstrapRun false act).result.error = "step " ++ f.1 ++ " failed: " ++ msg ∧
    (bootstrapRun false act).runError = some ("step " ++ f.1 ++ " failed: " ++ msg) ∧
    (bootstrapRun false act).executed = pre.map Prod.fst ++ [f.1] := by
  have h := runStepsAux_append_fail act msg pre f rest hpre hf
  rw [← hsplit] at h
  simp [bootstrapRun, h, List.getLast?_concat]

/-- C2 witness: failing the third step (docker_install) after two successes
records exactly three steps, the last failed with the message, status failed,
and an error naming docker_install. -/
theorem run_failFast_witness :
    (bootstrapRun false c2Act).result.steps.length = 3 ∧
    (bootstrapRun false c2Act).result.steps.getLast? =
      some ⟨"docker_install", .failed, "boom"⟩ ∧
    (bootstrapRun false c2Act).result.status = "failed" ∧
    (bootstrapRun false c2Act).result.error = "step docker_install failed: boom" ∧
    (bootstrapRun false c2Act).runError = some "step docker_install failed: boom" ∧
    (bootstrapRun false c2Act).executed = ["ssh_connectivity", "os_hardening", "docker_install"] := by
  have h := run_failFast c2Act
    [("ssh_connectivity", "Check SSH TCP reachability"),
     ("os_hardening", "Apply idempotent OS hardening baseline")]
    ("docker_install", "Install pinned Docker version")
    [("talosctl_install", "Install pinned talosctl and verify checksum"),
     ("cluster_create", "Create Talos-in-Docker cluster if missing")]
    "boom" rfl (by decide) (by decide)
  simpa using h

/-- C8: against a port unreachable on every attempt, with no cancellation and
maxAttempts N ≥ 1, the prober makes exactly N attempts, reports
attemptsUsed = N, and fails wrapping the last low-level dial error. -/
theorem waitForPort_exhaustsAttempts (dial : Nat → Option String)
    (canceledAt : Nat → Bool) (N : Nat)
    (hN : 1 ≤ N)
    (hfail : ∀ i, (dial i).isSome)
    (hc : ∀ i, canceledAt i = false) :
    waitForTCPPortWithStats dial canceledAt N = .exhausted N (dial (N - 1)) ∧
    ∃ e, dial (N - 1) = some e := by
  obtain ⟨r, hr⟩ : ∃ r, N = r + 1 := ⟨N - 1, by omega⟩
  subst hr
  refine ⟨?_, Option.isSome_iff_exists.mp (hfail r)⟩
  have h := waitAux_allFail dial canceledAt hc r 0 none (fun j _ => hfail j)
  simpa [waitForTCPPortWithStats] using h

/-- C8 witness: maxAttempts = 2 against an always-refused dial fails after
exactly 2 attempts with attemptsUsed = 2, wrapping the dial error. -/
theorem waitForPort_exhaustsAttempts_witness :
    waitForTCPPortWithStats (fun _ => some "connection refused") (fun _ => false) 2 =
      .exhausted 2 (some "connection refused") := by
  have h := waitForPort_exhaustsAttempts (fun _ => some "connection refused")
    (fun _ => false) 2 (by omega) (fun _ => rfl) (fun _ => rfl)
  exact h.1

/-- C9: ensureTrust guards. With an empty (trimmed) expected fingerprint it
returns success immediately, with no scan and no trust-store operation; with a
non-empty expected fingerprint but empty trust-store path it fails before any
scan with the configured-invariant error. -/
theorem ensureTrust_guards (parseFP : String → Option String)
    (scanExec : Nat → Except String String) (cfg : ExecConfig) (ctxDone : Bool)
    (k : Nat) :
    (goTrim cfg.expectedHostKeySHA256 = "" →
      ensureExpectedHostKey parseFP scanExec cfg ctxDone k = ⟨.ok (), [], k⟩) ∧
    (goTrim cfg.expectedHostKeySHA256 ≠ "" → goTrim cfg.knownHostsFile = "" →
      ensureExpectedHostKey parseFP scanExec cfg ctxDone k =
        ⟨.error "known_hosts_file is required when expected host fingerprint is set",
         [], k⟩) := by
  constructor
  · intro h
    simp [ensureExpectedHostKey, h]
  · intro h1 h2
    simp [ensureExpectedHostKey, h1, h2]

/-- C9 witness: with no expected fingerprint the trust step is a pure no-op;
with a pinned fingerprint and empty trust-store path it fails with the
invariant error, in both cases consuming no scan. -/
theorem ensureTrust_guards_witness :
    ensureExpectedHostKey c1Parse c1Scan c6Cfg false 0 = ⟨.ok (), [], 0⟩ ∧
    ensureExpectedHostKey c1Parse c1Scan c9Cfg false 0 =
      ⟨.error "known_hosts_file is required when expected host fingerprint is set",
       [], 0⟩ := by
  exact ⟨(ensureTrust_guards c1Parse c1Scan c6Cfg false 0).1 (by decide),
    (ensureTrust_guards c1Parse c1Scan c9Cfg false 0).2 (by decide) (by decide)⟩

/-- C1 counterexample: the scan presents keys X then Y, the strict-mode
configuration pins Y's fingerprint. ensureTrust succeeds, but the trust store
gains X's raw entry (the first-seen one), not the scanned entry whose
fingerprint equals the expected Y. -/
theorem ensureTrust_acceptance_counterexample :
    scanSetAt c1Parse c1Scan c1Cfg 0 =
      .ok ⟨"SHA256:xfp", "h ssh-ed25519 AAAX\n",
        [("SHA256:xfp", "h ssh-ed25519 AAAX\n"), ("SHA256:yfp", "h ssh-ed25519 AAAY\n")]⟩ ∧
    goTrim c1Cfg.expectedHostKeySHA256 = "SHA256:yfp" ∧
    (ensureExpectedHostKey c1Parse c1Scan c1Cfg false 0).res = .ok () ∧
    (ensureExpectedHostKey c1Parse c1Scan c1Cfg false 0).ops =
      [.remove "h", .append "h ssh-ed25519 AAAX\n"] ∧
    StoreOp.append "h ssh-ed25519 AAAY\n" ∉
      (ensureExpectedHostKey c1Parse c1Scan c1Cfg false 0).ops := by
  exact ⟨rfl, rfl, rfl, by decide, by decide⟩

/-- C1 as amended: when the expected fingerprint is present anywhere in the
scanned set, ensureTrust succeeds (in strict mode as in any mode) and the
trust store gains the first-seen (preferred) raw entry of the scan — which is
the expected key's entry exactly when that key is first-seen; a mismatch error
is declared only when the expected fingerprint is in none of the returned
keys (in strict mode the mismatch error names expected and observed). -/
theorem ensureTrust_acceptanceBreadth (parseFP : String → Option String)
    (scanExec : Nat → Except String String) (cfg : ExecConfig) (ctxDone : Bool)
    (k : Nat) (s : ScanSet)
    (hexp : goTrim cfg.expectedHostKeySHA256 ≠ "")
    (hkh : goTrim cfg.knownHostsFile ≠ "")
    (hscan : scanSetAt parseFP scanExec cfg k = .ok s) :
    (∀ e, assocFind s.all (goTrim cfg.expectedHostKeySHA256) = some e →
      ensureExpectedHostKey parseFP scanExec cfg ctxDone k =
        ⟨.ok (), [.remove (knownHostsTarget cfg).fst, .append s.entry], k + 1⟩) ∧
    (assocFind s.all (goTrim cfg.expectedHostKeySHA256) = none →
      normalizeKnownHostsMode cfg.knownHostsMode = "strict" →
      ensureExpectedHostKey parseFP scanExec cfg ctxDone k =
        ⟨.error (fingerprintMismatchMsg (goTrim cfg.expectedHostKeySHA256) s.fp),
         [], k + 1⟩) := by
  constructor
  · intro e hfound
    simp [ensureExpectedHostKey, hexp, hkh, hscan, hfound, writeKnownHostsEntry]
  · intro habsent hmode
    simp [ensureExpectedHostKey, hexp, hkh, hscan, habsent, hmode]

/-- C1 witness: in the two-key scenario with Y's fingerprint pinned,
ensureTrust succeeds and writes the preferred (first-seen) entry. -/
theorem ensureTrust_acceptanceBreadth_witness :
    ensureExpectedHostKey c1Parse c1Scan c1Cfg false 0 =
      ⟨.ok (), [.remove "h", .append "h ssh-ed25519 AAAX\n"], 1⟩ := by
  have h := (ensureTrust_acceptanceBreadth c1Parse c1Scan c1Cfg false 0
    ⟨"SHA256:xfp", "h ssh-ed25519 AAAX\n",
      [("SHA256:xfp", "h ssh-ed25519 AAAX\n"), ("SHA256:yfp", "h ssh-ed25519 AAAY\n")]⟩
    (by decide) (by decide) rfl).1 "h ssh-ed25519 AAAY\n" (by decide)
  simpa using h

/-- C3: in auto-refresh mode with a configured expected fingerprint absent
from the scanned set, if the stabilization re-scan observes a fingerprint
different from the first scan's (both non-empty), ensureTrust fails with the
"changed during verification" error naming both fingerprints, and performs no
trust-store operation. -/
theorem ensureTrust_autoRefresh_rejectsInstability (parseFP : String → Option String)
    (scanExec : Nat → Except String String) (cfg : ExecConfig) (k : Nat)
    (s1 s2 : ScanSet)
    (hexp : goTrim cfg.expectedHostKeySHA256 ≠ "")
    (hkh : goTrim cfg.knownHostsFile ≠ "")
    (hmode : normalizeKnownHostsMode cfg.knownHostsMode = "auto-refresh")
    (hscan1 : scanSetAt parseFP scanExec cfg k = .ok s1)
    (habsent : assocFind s1.all (goTrim cfg.expectedHostKeySHA256) = none)
    (hscan2 : scanSetAt parseFP scanExec cfg (k + 1) = .ok s2)
    (hfp1 : goTrim s1.fp ≠ "")
    (hfp2 : goTrim s2.fp ≠ "")
    (hne : s1.fp ≠ s2.fp) :
    ensureExpectedHostKey parseFP scanExec cfg false k =
      ⟨.error ("ssh host fingerprint changed during verification (" ++ s1.fp ++
        " -> " ++ s2.fp ++ "); retry after VM stabilizes"), [], k + 1 + 1⟩ ∧
    (∃ u v w : String,
      "ssh host fingerprint changed during verification (" ++ s1.fp ++
        " -> " ++ s2.fp ++ "); retry after VM stabilizes" =
        u ++ s1.fp ++ v ++ s2.fp ++ w) := by
  refine ⟨?_, ⟨"ssh host fingerprint changed during verification (", " -> ",
    "); retry after VM stabilizes", rfl⟩⟩
  simp [ensureExpectedHostKey, hexp, hkh, hscan1, habsent, hmode, trustStablePath,
    ensureStableScannedHostKey, hscan2, hfp1, hfp2, hne]

/-- C3 witness: first scan sees X, re-scan sees Y, under auto-refresh with an
absent pinned fingerprint: the call fails with the changed-during-verification
error naming both fingerprints and leaves the store untouched. -/
theorem ensureTrust_autoRefresh_rejectsInstability_witness :
    ensureExpectedHostKey c1Parse c3Scan c3Cfg false 0 =
      ⟨.error ("ssh host fingerprint changed during verification (SHA256:xfp -> SHA256:yfp); retry after VM stabilizes"),
       [], 2⟩ := by
  have h := (ensureTrust_autoRefresh_rejectsInstability c1Parse c3Scan c3Cfg 0
    ⟨"SHA256:xfp", "h ssh-ed25519 AAAX\n", [("SHA256:xfp", "h ssh-ed25519 AAAX\n")]⟩
    ⟨"SHA256:yfp", "h ssh-ed25519 AAAY\n", [("SHA256:yfp", "h ssh-ed25519 AAAY\n")]⟩
    (by decide) (by decide) (by decide) rfl (by decide) rfl
    (by decide) (by decide) (by decide)).1
  simpa using h

/-- One-step unfolding of the stabilization loop. -/
theorem stabilizeAux_step (scan : Nat → Except String String) (done : Nat → Bool)
    (fuel k : Nat) (prev : String) (consec : Nat) (lastErr : Option String) :
    stabilizeAux scan done (fuel + 1) k prev consec lastErr =
      (if done k then .canceled lastErr
       else
        match scan k with
        | .error e => stabilizeAux scan done fuel (k + 1) prev consec (some e)
        | .ok fp =>
          if goTrim fp = "" then stabilizeAux scan done fuel (k + 1) prev consec lastErr
          else
            let consec1 := if fp = prev then consec + 1 else 1
            if requiredConsecutive ≤ consec1 then .ok fp
            else stabilizeAux scan done fuel (k + 1) fp consec1 lastErr) := rfl

/-- An ever-changing non-empty fingerprint sequence never reaches two
consecutive matches, so the loop runs until the deadline D fires and returns
the cancellation outcome (no probe error was observed). -/
theorem stabilizeAux_everChanging (f : Nat → String) (D : Nat)
    (hne : ∀ j, goTrim (f j) ≠ "")
    (hch : ∀ j, f (j + 1) ≠ f j) :
    ∀ (gap k : Nat) (prev : String) (consec : Nat),
    k + gap = D → (f k = prev → consec = 0) →
    stabilizeAux (fun j => .ok (f j)) (fun j => decide (D ≤ j)) (gap + 1) k prev consec none =
      .canceled none := by
  intro gap
  induction gap with
  | zero =>
    intro k prev consec hk _
    have hD : D ≤ k := by omega
    rw [stabilizeAux_step]
    simp [hD]
  | succ gap ih =>
    intro k prev consec hk hinv
    have hD : ¬ D ≤ k := by omega
    rw [stabilizeAux_step]
    by_cases hfk : f k = prev
    · subst hfk
      have hc0 : consec = 0 := hinv rfl
      subst hc0
      simpa [hD, hne k, requiredConsecutive] using
        ih (k + 1) (f k) 1 (by omega) (fun h => absurd h (hch k))
    · simpa [hD, hne k, hfk, requiredConsecutive] using
        ih (k + 1) (f k) 1 (by omega) (fun h => absurd h (hch k))

/-- C5: stabilization convergence. The refresh loop accepts only after two
consecutive identical non-empty observations: for the scan sequence [A, B, B]
it returns B; for [A, B, C, C] under the requiredConsecutive = 2 policy it
returns C; a probe error followed by an empty scan is skipped (not fatal) and
the loop still converges; an ever-changing sequence fails with the
cancellation outcome once the deadline fires (no probe error to wrap); and an
always-erroring sequence fails at the deadline wrapping the last probe
error. -/
theorem stabilize_convergence :
    (∀ A B : String, A ≠ B → goTrim A ≠ "" → goTrim B ≠ "" →
      stabilizeHostFingerprint (fun k => .ok ([A, B, B].getD k B)) (fun _ => false) 4 =
        .ok B) ∧
    (∀ A B C : String, A ≠ B → B ≠ C → goTrim A ≠ "" → goTrim B ≠ "" → goTrim C ≠ "" →
      stabilizeHostFingerprint (fun k => .ok ([A, B, C, C].getD k C)) (fun _ => false) 5 =
        .ok C) ∧
    (stabilizeHostFingerprint
      (fun k => [Except.error "probe failed", Except.ok "", Except.ok "SHA256:x",
        Except.ok "SHA256:x"].getD k (Except.ok "SHA256:x"))
      (fun _ => false) 5 = .ok "SHA256:x") ∧
    (∀ (f : Nat → String) (D : Nat),
      (∀ j, goTrim (f j) ≠ "") → (∀ j, f (j + 1) ≠ f j) →
      stabilizeHostFingerprint (fun j => .ok (f j)) (fun j => decide (D ≤ j)) (D + 1) =
        .canceled none) ∧
    (stabilizeHostFingerprint (fun _ => .error "scan failed") (fun j => decide (2 ≤ j)) 3 =
      .canceled (some "scan failed")) := by
  refine ⟨?_, ?_, by decide, ?_, by decide⟩
  · intro A B hAB hA hB
    have hA0 : A ≠ "" := fun h => hA (by rw [h]; rfl)
    have hBA : B ≠ A := fun h => hAB h.symm
    simp [stabilizeHostFingerprint, stabilizeAux, hA, hB, hA0, hBA, requiredConsecutive]
  · intro A B C hAB hBC hA hB hC
    have hA0 : A ≠ "" := fun h => hA (by rw [h]; rfl)
    have hBA : B ≠ A := fun h => hAB h.symm
    have hCB : C ≠ B := fun h => hBC h.symm
    simp [stabilizeHostFingerprint, stabilizeAux, hA, hB, hC, hA0, hBA, hCB,
      requiredConsecutive]
  · intro f D hne hch
    exact stabilizeAux_everChanging f D hne hch D 0 "" 0 (by omega) (fun _ => rfl)

/-- C5 witness: concrete instances of the convergence theorem — [A, B, B]
returns B, [A, B, C, C] returns C, and a three-way rotating sequence is
rejected at the deadline. -/
theorem stabilize_convergence_witness :
    stabilizeHostFingerprint
      (fun k => .ok (["SHA256:aa", "SHA256:bb", "SHA256:bb"].getD k "SHA256:bb"))
      (fun _ => false) 4 = .ok "SHA256:bb" ∧
    stabilizeHostFingerprint
      (fun k => .ok (["SHA256:aa", "SHA256:bb", "SHA256:cc", "SHA256:cc"].getD k "SHA256:cc"))
      (fun _ => false) 5 = .ok "SHA256:cc" ∧
    stabilizeHostFingerprint
      (fun j => .ok (if j % 2 = 0 then "SHA256:r0" else "SHA256:r1"))
      (fun j => decide (6 ≤ j)) 7 = .canceled none := by
  refine ⟨stabilize_convergence.1 "SHA256:aa" "SHA256:bb" (by decide) (by decide) (by decide),
    stabilize_convergence.2.1 "SHA256:aa" "SHA256:bb" "SHA256:cc"
      (by decide) (by decide) (by decide) (by decide) (by decide),
    stabilize_convergence.2.2.2.1
      (fun j => if j % 2 = 0 then "SHA256:r0" else "SHA256:r1") 6 ?_ ?_⟩
  · intro j
    by_cases hj : j % 2 = 0 <;> simp [hj] <;> decide
  · intro j
    by_cases hj : j % 2 = 0
    · have h1 : (j + 1) % 2 = 1 := by omega
      simp [hj, h1]
    · have h0 : (j + 1) % 2 = 0 := by omega
      simp [hj, h0]

/-- Length of appending a string to a packed char list (used for the
truncation bound). -/
theorem strLen_mk_append (ls d : List Char) :
    (String.mk ls ++ String.mk d).length = ls.length + d.length := by
  show (ls ++ d).length = ls.length + d.length
  exact List.length_append ls d

/-- C7: stderr filtering. Every kept line is non-empty and not a progress/noise
row (lines containing "% Total", "Dload" or "--:--:--" are dropped); when more
than one informative line remains, the summary is the last two joined with the
visible " | " separator; the embedded summary is truncated to a bounded length
(≤ 363 chars); and for the spec's concrete stderr the surfaced text excludes
the progress row and joins both error lines. -/
theorem stderr_summary_filters :
    (∀ s t, t ∈ informativeLines s → t ≠ "" ∧ isNoiseLine t = false) ∧
    (∀ s a b l, informativeLines s = l ++ [a, b] →
      summarizeSSHStderr s = a ++ " | " ++ b) ∧
    (∀ t, (truncate360 t).length ≤ 363) ∧
    (summarizeSSHStderr
        "% Total    % Received % Xferd  Average Speed\nactual error line 1\nactual error line 2" =
      "actual error line 1 | actual error line 2") := by
  refine ⟨?_, ?_, ?_, by decide⟩
  · intro s t ht
    simp only [informativeLines, List.mem_filterMap] at ht
    obtain ⟨a, _, ha⟩ := ht
    by_cases h1 : goTrim a = ""
    · simp [h1] at ha
    · by_cases h2 : isNoiseLine (goTrim a) = true
      · simp [h1, h2] at ha
      · simp [h1, h2] at ha
        rw [← ha]
        exact ⟨h1, by simpa using h2⟩
  · intro s a b l h
    obtain ⟨x, y, rest, hxy⟩ : ∃ x y rest, l ++ [a, b] = x :: y :: rest := by
      rcases l with _ | ⟨x, l⟩
      · exact ⟨a, b, [], rfl⟩
      · rcases l with _ | ⟨y, l⟩
        · exact ⟨x, a, [b], rfl⟩
        · exact ⟨x, y, l ++ [a, b], by simp⟩
    unfold summarizeSSHStderr
    rw [h, hxy]
    change goJoin " | "
      (List.drop ((x :: y :: rest).length - 2) (x :: y :: rest)) = a ++ " | " ++ b
    rw [← hxy]
    have hlen : (l ++ [a, b]).length - 2 = l.length := by simp
    rw [hlen, List.drop_left]
    rfl
  · intro t
    unfold truncate360
    by_cases h : t.length > 360
    · simp only [h, ite_true]
      have h3 : ("..." : String) = String.mk ['.', '.', '.'] := rfl
      rw [h3, strLen_mk_append]
      have hle := List.length_take_le 360 t.data
      simp only [List.length_cons, List.length_nil]
      omega
    · simp only [h, ite_false]
      omega

/-- C7 witness: for stderr with informative lines x, y, z the summary keeps
the last two joined with the separator. -/
theorem stderr_summary_filters_witness :
    summarizeSSHStderr "line x\nline y\nline z" = "line y | line z" := by
  exact stderr_summary_filters.2.1 "line x\nline y\nline z" "line y" "line z"
    ["line x"] (by decide)

/-- C10: trust-mode normalization is case-insensitive with surrounding
whitespace trimmed and accepts underscore variants; every unrecognized or
empty mode string normalizes to strict, in which case buildSSHArgs emits
StrictHostKeyChecking=yes and shouldAutoRefreshKnownHost returns false (so no
auto-refresh recovery is attempted). -/
theorem trustMode_normalization :
    normalizeKnownHostsMode "accept_new" = "accept-new" ∧
    normalizeKnownHostsMode "auto_refresh" = "auto-refresh" ∧
    normalizeKnownHostsMode " Auto_Refresh " = "auto-refresh" ∧
    normalizeKnownHostsMode "" = "strict" ∧
    (∀ m, goToLower (goTrim m) ∉
        (["", "strict", "prompt", "accept-new", "accept_new",
          "auto-refresh", "auto_refresh"] : List String) →
      normalizeKnownHostsMode m = "strict") ∧
    (∀ cfg rc, normalizeKnownHostsMode cfg.knownHostsMode = "strict" →
      "StrictHostKeyChecking=yes" ∈ buildSSHArgs cfg rc) ∧
    (∀ cfg st, normalizeKnownHostsMode cfg.knownHostsMode = "strict" →
      shouldAutoRefreshKnownHost cfg st = false) := by
  refine ⟨by decide, by decide, by decide, by decide, ?_, ?_, ?_⟩
  · intro m hm
    simp only [List.mem_cons, List.not_mem_nil, or_false, not_or] at hm
    obtain ⟨h1, h2, h3, h4, h5, h6, h7⟩ := hm
    simp [normalizeKnownHostsMode, h1, h2, h3, h4, h5, h6, h7]
  · intro cfg rc h
    have hflag :
        (if normalizeKnownHostsMode cfg.knownHostsMode = "accept-new" then
          "accept-new" else "yes") = "yes" := by
      rw [h]; rfl
    by_cases hk : cfg.knownHostsFile = "" <;>
      simp [buildSSHArgs, hflag, hk]
  · intro cfg st h
    unfold shouldAutoRefreshKnownHost
    by_cases hk : goTrim cfg.knownHostsFile = ""
    · simp [hk]
    · simp [hk, h]

/-- C10 witness: the unrecognized mode "weird" normalizes to strict, makes
buildSSHArgs emit StrictHostKeyChecking=yes, and disables auto-refresh
recovery. -/
theorem trustMode_normalization_witness :
    normalizeKnownHostsMode "weird" = "strict" ∧
    "StrictHostKeyChecking=yes" ∈ buildSSHArgs c10Cfg "echo ok" ∧
    shouldAutoRefreshKnownHost c10Cfg
      "Host key verification failed. Offending key" = false := by
  have h5 := trustMode_normalization.2.2.2.2.1 "weird" (by decide)
  exact ⟨h5,
    trustMode_normalization.2.2.2.2.2.1 c10Cfg "echo ok" h5,
    trustMode_normalization.2.2.2.2.2.2 c10Cfg
      "Host key verification failed. Offending key" h5⟩

/-- A positive auto-refresh signature check implies a configured trust-store
path and a prompt or auto-refresh trust mode. -/
theorem shouldAutoRefresh_conditions (cfg : ExecConfig) (st : String)
    (h : shouldAutoRefreshKnownHost cfg st = true) :
    goTrim cfg.knownHostsFile ≠ "" ∧
    (normalizeKnownHostsMode cfg.knownHostsMode = "auto-refresh" ∨
     normalizeKnownHostsMode cfg.knownHostsMode = "prompt") := by
  simp only [shouldAutoRefreshKnownHost] at h
  by_cases h1 : goTrim cfg.knownHostsFile = ""
  · rw [if_pos h1] at h
    exact absurd h (by simp)
  · rw [if_neg h1] at h
    by_cases h2 : normalizeKnownHostsMode cfg.knownHostsMode ≠ "auto-refresh" ∧
        normalizeKnownHostsMode cfg.knownHostsMode ≠ "prompt"
    · rw [if_pos h2] at h
      exact absurd h (by simp)
    · rw [not_and_or, not_not, not_not] at h2
      exact ⟨h1, h2⟩

/-- C6: the remote executor runs the remote command at most twice per call; a
second (retry) execution happens only when the first execution failed, its
stderr carries the host-identity-changed signature (which itself requires a
configured trust-store path and prompt or auto-refresh mode), the interactive
callback approves in prompt mode, and the unconditional trust-store
auto-refresh succeeds. -/
theorem runSSHCommand_retryBound (parseFP : String → Option String)
    (scanExec : Nat → Except String String) (cmdExec : Nat → CmdRes)
    (cfg : ExecConfig) (ctxDone : Bool) (pfx : String) :
    (runSSHCommand parseFP scanExec cmdExec cfg ctxDone pfx).cmdRuns ≤ 2 ∧
    ((runSSHCommand parseFP scanExec cmdExec cfg ctxDone pfx).cmdRuns = 2 →
      (cmdExec 0).err.isSome = true ∧
      shouldAutoRefreshKnownHost cfg (cmdExec 0).stderr = true ∧
      goTrim cfg.knownHostsFile ≠ "" ∧
      (normalizeKnownHostsMode cfg.knownHostsMode = "auto-refresh" ∨
       normalizeKnownHostsMode cfg.knownHostsMode = "prompt") ∧
      (normalizeKnownHostsMode cfg.knownHostsMode = "prompt" →
        ∃ p, cfg.prompt = some p ∧
          p "SSH host key changed. Accept new host key?" = .ok true) ∧
      (autoRefreshKnownHost scanExec cfg
        (ensureExpectedHostKey parseFP scanExec cfg ctxDone 0).next).res = .ok ()) := by
  rcases ht : (ensureExpectedHostKey parseFP scanExec cfg ctxDone 0).res with e | u
  · constructor
    · simp [runSSHCommand, ht]
    · intro h2
      simp [runSSHCommand, ht] at h2
  · rcases h0 : (cmdExec 0).err with _ | e0
    · constructor
      · simp [runSSHCommand, ht, h0]
      · intro h2
        simp [runSSHCommand, ht, h0] at h2
    · by_cases hs : shouldAutoRefreshKnownHost cfg (cmdExec 0).stderr
      · by_cases hm : normalizeKnownHostsMode cfg.knownHostsMode = "prompt"
        · rcases hp : cfg.prompt with _ | p
          · constructor
            · simp [runSSHCommand, ht, h0, hs, hm, hp]
            · intro h2
              simp [runSSHCommand, ht, h0, hs, hm, hp] at h2
          · rcases hpr : p "SSH host key changed. Accept new host key?" with pe | b
            · constructor
              · simp [runSSHCommand, ht, h0, hs, hm, hp, hpr]
              · intro h2
                simp [runSSHCommand, ht, h0, hs, hm, hp, hpr] at h2
            · cases b with
              | false =>
                constructor
                · simp [runSSHCommand, ht, h0, hs, hm, hp, hpr]
                · intro h2
                  simp [runSSHCommand, ht, h0, hs, hm, hp, hpr] at h2
              | true =>
                rcases hr : (autoRefreshKnownHost scanExec cfg
                    (ensureExpectedHostKey parseFP scanExec cfg ctxDone 0).next).res
                    with re | ru
                · constructor
                  · simp [runSSHCommand, ht, h0, hs, hm, hp, hpr, hr]
                  · intro h2
                    simp [runSSHCommand, ht, h0, hs, hm, hp, hpr, hr] at h2
                · have hcond := shouldAutoRefresh_conditions cfg (cmdExec 0).stderr hs
                  constructor
                  · rcases h1 : (cmdExec 1).err with _ | e1 <;>
                      simp [runSSHCommand, ht, h0, hs, hm, hp, hpr, hr, h1]
                  · intro _
                    exact ⟨by simp, hs, hcond.1, hcond.2,
                      fun _ => ⟨p, rfl, hpr⟩, rfl⟩
        · rcases hr : (autoRefreshKnownHost scanExec cfg
              (ensureExpectedHostKey parseFP scanExec cfg ctxDone 0).next).res with re | ru
          · constructor
            · simp [runSSHCommand, ht, h0, hs, hm, hr]
            · intro h2
              simp [runSSHCommand, ht, h0, hs, hm, hr] at h2
          · have hcond := shouldAutoRefresh_conditions cfg (cmdExec 0).stderr hs
            constructor
            · rcases h1 : (cmdExec 1).err with _ | e1 <;>
                simp [runSSHCommand, ht, h0, hs, hm, hr, h1]
            · intro _
              exact ⟨by simp, hs, hcond.1, hcond.2,
                fun hmp => absurd hmp hm, rfl⟩
      · constructor
        · simp [runSSHCommand, ht, h0, hs]
        · intro h2
          simp [runSSHCommand, ht, h0, hs] at h2

/-- C6 witness: in auto-refresh mode with a failing first execution whose
stderr carries the changed-host-key signature and a succeeding trust-store
refresh, the command is executed exactly twice and every retry condition
holds. -/
theorem runSSHCommand_retryBound_witness :
    (runSSHCommand c1Parse c1Scan c6Cmd c6Cfg false "ssh run command failed").cmdRuns = 2 ∧
    (c6Cmd 0).err.isSome = true ∧
    shouldAutoRefreshKnownHost c6Cfg (c6Cmd 0).stderr = true ∧
    goTrim c6Cfg.knownHostsFile ≠ "" ∧
    (normalizeKnownHostsMode c6Cfg.knownHostsMode = "auto-refresh" ∨
     normalizeKnownHostsMode c6Cfg.knownHostsMode = "prompt") ∧
    (autoRefreshKnownHost c1Scan c6Cfg
      (ensureExpectedHostKey c1Parse c1Scan c6Cfg false 0).next).res = .ok () := by
  have h2 := (runSSHCommand_retryBound c1Parse c1Scan c6Cmd c6Cfg false
    "ssh run command failed").2 (by decide)
  exact ⟨by decide, h2.1, h2.2.1, h2.2.2.1, h2.2.2.2.1, h2.2.2.2.2.2⟩

end TalosVM
